import Mathlib

/-!
Shallow embedding of the SSE manager in
`src/features/shared/utils/sse-manager.ts`, together with the Prisma-backed
durable store it talks to (`SSESession` and `SSESubscription` tables).

Modelling conventions:
- The JS `Map<string, SSEClient>` is a list of clients in insertion order;
  `Map.get`, `Map.set`, `Map.delete` are `mapGet`, `mapSet`, `mapDelete`.
- A connection's `res` object is modelled by its observable behaviour: the
  boolean `writeOk` says whether `res.write` succeeds or throws, and the side
  effects of a tick or operation are collected in a trace of `Eff` events
  (`write clientId data` for a successful write, `close clientId` for a call
  to `res.end()`).
- Durable-store calls that the source wraps in their own try/catch
  (`updateSession`, `updateSessionPing`, `markSessionOffline`,
  `markSessionOfflineBySessionToken`) are total functions on `Store` that
  leave the store unchanged when `dbFails` is set (the catch logs and
  swallows the error).  Store calls whose failure is caught only by the
  calling operation's try/catch (or not at all, as in
  `sendEventToSubscribers`) return `Except Unit Store`.
- `dbFails : Bool` in `Store` is the failure oracle: when it is set, every
  durable-store call rejects.
- Timestamps (`Date.now()`, `new Date()`) are naturals, passed explicitly
  as `now`.
- JS truthiness checks on `string | undefined` (`if (client.sessionToken)`)
  are `strTruthy`: `none` and `some ""` are falsy.
-/

mutual

/-- JSON values, as handled by `JSON.stringify` in the source.  Object
fields and array elements are mutually inductive lists so that the
serializer is structurally recursive. -/
inductive Json where
  | null : Json
  | bool : Bool → Json
  | num : Int → Json
  | str : String → Json
  | arr : JsonList → Json
  | obj : JsonFields → Json

inductive JsonList where
  | nil : JsonList
  | cons : Json → JsonList → JsonList

inductive JsonFields where
  | nil : JsonFields
  | cons : String → Json → JsonFields → JsonFields

end

/-- Escaping of one character inside a JSON string literal, as
`JSON.stringify` does for the characters that can occur in this
development (quote, backslash, newline). -/
def jsonEscapeChar (c : Char) : String :=
  if c = '"' then "\\\""
  else if c = '\\' then "\\\\"
  else if c = '\n' then "\\n"
  else String.singleton c

/-- A JSON string literal: quoted and escaped, as `JSON.stringify` emits. -/
def jsonQuote (s : String) : String :=
  "\"" ++ String.join (s.toList.map jsonEscapeChar) ++ "\""

mutual

/-- `JSON.stringify`, as used by `send` on the envelope payload. -/
def jsonStringify : Json → String
  | Json.null => "null"
  | Json.bool b => if b then "true" else "false"
  | Json.num n => toString n
  | Json.str s => jsonQuote s
  | Json.arr xs => "[" ++ jsonStringifyList xs ++ "]"
  | Json.obj fs => "\x7b" ++ jsonStringifyFields fs ++ "\x7d"

def jsonStringifyList : JsonList → String
  | JsonList.nil => ""
  | JsonList.cons x JsonList.nil => jsonStringify x
  | JsonList.cons x xs => jsonStringify x ++ "," ++ jsonStringifyList xs

def jsonStringifyFields : JsonFields → String
  | JsonFields.nil => ""
  | JsonFields.cons k v JsonFields.nil => jsonQuote k ++ ":" ++ jsonStringify v
  | JsonFields.cons k v fs => jsonQuote k ++ ":" ++ jsonStringify v ++ "," ++ jsonStringifyFields fs

end

/-- The `SSEEvent` envelope type: an event name plus a JSON payload. -/
structure SSEEvent where
  event : String
  data : Json

/-- In-memory client connection state (`SSEClient` in the source).  The
`res` stream object is represented by `writeOk`: whether `res.write`
succeeds (`true`) or throws (`false`). -/
structure SSEClient where
  id : String
  sessionToken : Option String
  lastPing : Nat
  subscriptions : Option (List String)
  userAgent : Option String
  ipAddress : Option String
  writeOk : Bool
deriving DecidableEq

/-- A durable `SSESession` record (Prisma model), keyed by `clientId`. -/
structure SSESession where
  clientId : String
  sessionToken : Option String
  status : String
  lastSeen : Nat
  lastPing : Nat
  userAgent : Option String
  ipAddress : Option String
deriving DecidableEq

/-- A durable `SSESubscription` record (Prisma model), unique on the
triple `(sessionToken, eventName, clientId)`; `clientId` is nullable. -/
structure SSESubscription where
  sessionToken : String
  eventName : String
  clientId : Option String
deriving DecidableEq

/-- The durable store: the two tables the manager touches, plus the
failure oracle `dbFails` (when set, every store call rejects). -/
structure Store where
  sessions : List SSESession
  subs : List SSESubscription
  dbFails : Bool
deriving DecidableEq

/-- The manager's full state: the in-memory client map plus the store. -/
structure RegState where
  clients : List SSEClient
  store : Store
deriving DecidableEq

/-- Observable side effects on client connections. -/
inductive Eff where
  | write : String → String → Eff
  | close : String → Eff
deriving DecidableEq

/-- Result of one registry operation: the new state, the trace of
connection effects, and whether the operation's promise rejected
(`err = true` models an uncaught exception propagating to the caller). -/
structure OpOut where
  st : RegState
  tr : List Eff
  err : Bool

/-- JS truthiness of a `string | undefined` value: `undefined` and the
empty string are falsy. -/
def strTruthy : Option String → Bool
  | some s => !s.isEmpty
  | none => false

/-- `this.clients.get(clientId)`. -/
def mapGet (cs : List SSEClient) (clientId : String) : Option SSEClient :=
  cs.find? (fun c => c.id == clientId)

/-- `this.clients.set(client.id, client)`: replace in place if the key is
present, append otherwise (JS `Map` insertion-order semantics). -/
def mapSet (cs : List SSEClient) (client : SSEClient) : List SSEClient :=
  if cs.any (fun x => x.id == client.id) then
    cs.map (fun x => if x.id == client.id then client else x)
  else cs ++ [client]

/-- `this.clients.delete(clientId)`. -/
def mapDelete (cs : List SSEClient) (clientId : String) : List SSEClient :=
  cs.filter (fun c => c.id != clientId)

/-- `db.sSESession.updateMany(\x7bwhere: \x7bclientId\x7d, data: \x7bstatus: "offline", lastSeen\x7d\x7d)`
wrapped in `markSessionOffline`'s own try/catch: on store failure the
error is logged and the store is unchanged. -/
def markSessionOffline (st : Store) (clientId : String) (now : Nat) : Store :=
  if st.dbFails then st
  else { st with sessions := st.sessions.map (fun r =>
    if r.clientId == clientId then { r with status := "offline", lastSeen := now } else r) }

/-- `markSessionOfflineBySessionToken`: same update, matching on
`sessionToken`; has its own try/catch. -/
def markSessionOfflineBySessionToken (st : Store) (sessionToken : String) (now : Nat) : Store :=
  if st.dbFails then st
  else { st with sessions := st.sessions.map (fun r =>
    if r.sessionToken == some sessionToken then { r with status := "offline", lastSeen := now } else r) }

/-- `updateSession`: upsert of the `SSESession` record keyed by
`clientId`; has its own try/catch, so a store failure leaves the store
unchanged. -/
def updateSession (st : Store) (client : SSEClient) (now : Nat) : Store :=
  if st.dbFails then st
  else if st.sessions.any (fun r => r.clientId == client.id) then
    { st with sessions := st.sessions.map (fun r =>
      if r.clientId == client.id then
        { r with sessionToken := client.sessionToken, lastSeen := now, lastPing := now,
                 status := "online", userAgent := client.userAgent, ipAddress := client.ipAddress }
      else r) }
  else
    { st with sessions := st.sessions ++
      [{ clientId := client.id, sessionToken := client.sessionToken, status := "online",
         lastSeen := now, lastPing := now, userAgent := client.userAgent,
         ipAddress := client.ipAddress }] }

/-- `updateSessionPing`: `updateMany` setting `lastPing`/`status=online`
for the record with this `clientId`; has its own try/catch. -/
def updateSessionPing (st : Store) (clientId : String) (now : Nat) : Store :=
  if st.dbFails then st
  else { st with sessions := st.sessions.map (fun r =>
    if r.clientId == clientId then { r with lastPing := now, status := "online" } else r) }

/-- `db.sSESubscription.upsert` with unique key
`sessionToken_eventName_clientId`.  NOTE: faithful to the source, which
passes `clientId: sessionToken` in both the `where` key and the `create`
payload (the function's own `clientId` parameter is never used). -/
def upsertSubscription (st : Store) (sessionToken eventName : String)
    (clientId : Option String) : Except Unit Store :=
  if st.dbFails then Except.error ()
  else
    let exists0 := st.subs.any (fun r =>
      r.sessionToken == sessionToken && r.eventName == eventName && r.clientId == clientId)
    let subs' :=
      if exists0 then st.subs
      else st.subs ++ [{ sessionToken := sessionToken, eventName := eventName, clientId := clientId }]
    Except.ok { st with subs := subs' }

/-- `removeClient(clientId)`: ends the response (a throw from `end()` is
caught and logged), marks the session offline (by `sessionToken` when
truthy, else by `clientId`), and deletes the map entry.  No-op when the
id is absent. -/
def removeClient (st : RegState) (clientId : String) (now : Nat) : OpOut :=
  match mapGet st.clients clientId with
  | none => { st := st, tr := [], err := false }
  | some client =>
    let store' :=
      match client.sessionToken with
      | some tok =>
        if tok.isEmpty then markSessionOffline st.store clientId now
        else markSessionOfflineBySessionToken st.store tok now
      | none => markSessionOffline st.store clientId now
    { st := { clients := mapDelete st.clients clientId, store := store' },
      tr := [Eff.close clientId], err := false }

/-- The eviction loop at the top of `addClient`: `removeClient` applied to
each id in turn. -/
def removeClientsFold (st : RegState) (ids : List String) (now : Nat) : RegState × List Eff :=
  match ids with
  | [] => (st, [])
  | cid :: rest =>
    let r := removeClient st cid now
    let rr := removeClientsFold r.st rest now
    (rr.1, r.tr ++ rr.2)

/-- `addClient(client)`: when `client.sessionToken` is truthy, first
`removeClient` every existing client with the same `sessionToken`; then
`clients.set(client.id, client)`; then upsert the session record. -/
def addClient (st : RegState) (client : SSEClient) (now : Nat) : OpOut :=
  let evicted :=
    if strTruthy client.sessionToken then
      removeClientsFold st
        ((st.clients.filter (fun c => c.sessionToken == client.sessionToken)).map (fun c => c.id))
        now
    else (st, [])
  { st := { clients := mapSet evicted.1.clients client,
            store := updateSession evicted.1.store client now },
    tr := evicted.2, err := false }

/-- The wire encoding built by `send`:
`event: $\x7bevent.event\x7d\ndata: $\x7bJSON.stringify(event.data)\x7d\n\n`. -/
def sseFormat (event : SSEEvent) : String :=
  "event: " ++ event.event ++ "\ndata: " ++ jsonStringify event.data ++ "\n\n"

/-- The private `send(res, event)`: one successful write of the encoded
envelope, or nothing when `res.write` throws (the error is caught and
logged; the state is never touched). -/
def send (client : SSEClient) (event : SSEEvent) : List Eff :=
  if client.writeOk then [Eff.write client.id (sseFormat event)] else []

/-- `sendEventToClient(clientId, event)`: look up the connection; if
present, `send`; if absent, silently drop. -/
def sendEventToClient (st : RegState) (clientId : String) (event : SSEEvent) : OpOut :=
  match mapGet st.clients clientId with
  | some client => { st := st, tr := send client event, err := false }
  | none => { st := st, tr := [], err := false }

/-- `sendEventToUser(sessionToken, event)`: `send` to every client whose
`sessionToken` strictly equals the argument. -/
def sendEventToUser (st : RegState) (sessionToken : String) (event : SSEEvent) : OpOut :=
  { st := st,
    tr := ((st.clients.filter (fun c => c.sessionToken == some sessionToken)).map
      (fun c => send c event)).flatten,
    err := false }

/-- `broadcast(event)`: `send` to every live client. -/
def broadcast (st : RegState) (event : SSEEvent) : OpOut :=
  { st := st, tr := (st.clients.map (fun c => send c event)).flatten, err := false }

/-- `sendEventToSubscribers(eventName, event)`: reads all subscription
records for `eventName` from the store (NOT wrapped in try/catch: a store
failure rejects the returned promise), then for each record delivers via
`sendEventToClient` when its `clientId` is truthy, else via
`sendEventToUser` on its `sessionToken`. -/
def sendEventToSubscribers (st : RegState) (eventName : String) (event : SSEEvent) : OpOut :=
  if st.store.dbFails then { st := st, tr := [], err := true }
  else
    { st := st,
      tr := (((st.store.subs.filter (fun s => s.eventName == eventName)).map
        (fun sub =>
          match sub.clientId with
          | some cid =>
            if cid.isEmpty then (sendEventToUser st sub.sessionToken event).tr
            else (sendEventToClient st cid event).tr
          | none => (sendEventToUser st sub.sessionToken event).tr)).flatten),
      err := false }

/-- `subscribeToEvent(sessionToken, eventName, clientId?)`: upserts the
subscription record — passing `some sessionToken` as the stored
`clientId`, exactly as the source does — then pushes `eventName` onto the
in-memory `subscriptions` cache of every client of this session.  The
whole body is inside try/catch, so a store failure leaves the state
unchanged and the call returns normally. -/
def subscribeToEvent (st : RegState) (sessionToken eventName : String)
    (clientId : Option String) : OpOut :=
  match upsertSubscription st.store sessionToken eventName (some sessionToken) with
  | Except.error _ => { st := st, tr := [], err := false }
  | Except.ok store' =>
    let clients' := st.clients.map (fun c =>
      if c.sessionToken == some sessionToken then
        match c.subscriptions with
        | none => { c with subscriptions := some [eventName] }
        | some subs =>
          if subs.contains eventName then c
          else { c with subscriptions := some (subs ++ [eventName]) }
      else c)
    { st := { clients := clients', store := store' }, tr := [], err := false }

/-- `unsubscribeFromEvent(sessionToken, eventName, clientId?)`:
`deleteMany` on `(sessionToken, eventName)` — the `clientId` parameter is
ignored by the `where` filter — then removes `eventName` from the caches
of this session's clients.  Body inside try/catch. -/
def unsubscribeFromEvent (st : RegState) (sessionToken eventName : String)
    (clientId : Option String) : OpOut :=
  if st.store.dbFails then { st := st, tr := [], err := false }
  else
    let store' := { st.store with subs := st.store.subs.filter (fun r =>
      !(r.sessionToken == sessionToken && r.eventName == eventName)) }
    let clients' := st.clients.map (fun c =>
      if c.sessionToken == some sessionToken then
        match c.subscriptions with
        | some subs => { c with subscriptions := some (subs.filter (fun sub => sub != eventName)) }
        | none => c
      else c)
    { st := { clients := clients', store := store' }, tr := [], err := false }

/-- The log statement at the end of `unsubscribeFromAllEvents` references
the undefined variable `eventName`; evaluating the template literal
throws a `ReferenceError` at runtime.  Modelled as an always-failing
computation. -/
def logUnsubscribeAll : Except Unit Unit := Except.error ()

/-- `unsubscribeFromAllEvents(sessionToken)`: `deleteMany` on
`sessionToken` alone, then resets the caches of this session's clients
to `[]`.  The trailing log statement throws (see `logUnsubscribeAll`) but
the throw happens after both mutations and is caught by the function's
own catch, so the call still returns normally with the mutations
applied. -/
def unsubscribeFromAllEvents (st : RegState) (sessionToken : String) : OpOut :=
  if st.store.dbFails then { st := st, tr := [], err := false }
  else
    let store' := { st.store with subs := st.store.subs.filter (fun r =>
      r.sessionToken != sessionToken) }
    let clients' := st.clients.map (fun c =>
      if c.sessionToken == some sessionToken then
        match c.subscriptions with
        | some _ => { c with subscriptions := some [] }
        | none => c
      else c)
    match logUnsubscribeAll with
    | Except.error _ => { st := { clients := clients', store := store' }, tr := [], err := false }
    | Except.ok _ => { st := { clients := clients', store := store' }, tr := [], err := false }

/-- `HEARTBEAT_MS` constant of the manager. -/
def HEARTBEAT_MS : Nat := 25000

/-- `SESSION_CLEANUP_MS` constant of the manager (declared but not the
interval actually passed to `setInterval` in `startSessionCleanup`). -/
def SESSION_CLEANUP_MS : Nat := 60000

/-- The literal interval passed to `setInterval` in
`startSessionCleanup`: the reaper ticks every 10 000 ms. -/
def cleanupIntervalMs : Nat := 10000

/-- The staleness threshold used by both sweeps of the reaper:
`Date.now() - 30 * 1000`. -/
def staleThresholdMs : Nat := 30000

/-- The literal heartbeat payload written by `startHeartbeat` on every
tick: `event: ping\ndata: \x7b\x7d\n\n`. -/
def heartbeatPingData : String := "event: ping\ndata: \x7b\x7d\n\n"

/-- One client's handling inside a heartbeat tick: write the ping literal
(on success also bump the in-memory `lastPing` and the durable session
ping), or — when the write throws — `removeClient` the client. -/
def heartbeatStep (st : RegState) (cid : String) (now : Nat) : RegState × List Eff :=
  match mapGet st.clients cid with
  | none => (st, [])
  | some c =>
    if c.writeOk then
      ({ clients := st.clients.map (fun x => if x.id == cid then { x with lastPing := now } else x),
         store := updateSessionPing st.store cid now },
       [Eff.write cid heartbeatPingData])
    else
      let r := removeClient st cid now
      (r.st, r.tr)

/-- The heartbeat tick's loop over a snapshot of the map's keys. -/
def heartbeatTickGo (st : RegState) (ids : List String) (now : Nat) : RegState × List Eff :=
  match ids with
  | [] => (st, [])
  | cid :: rest =>
    let r := heartbeatStep st cid now
    let rr := heartbeatTickGo r.1 rest now
    (rr.1, r.2 ++ rr.2)

/-- One tick of the `startHeartbeat` interval (period `HEARTBEAT_MS`). -/
def heartbeatTick (st : RegState) (now : Nat) : RegState × List Eff :=
  heartbeatTickGo st (st.clients.map (fun c => c.id)) now

/-- The in-memory sweep of the reaper: for each stale client id,
`markSessionOffline(clientId)` then `removeClient(clientId)`. -/
def cleanupRemoveStale (st : RegState) (ids : List String) (now : Nat) : RegState × List Eff :=
  match ids with
  | [] => (st, [])
  | cid :: rest =>
    let st1 : RegState := { clients := st.clients, store := markSessionOffline st.store cid now }
    let r := removeClient st1 cid now
    let rr := cleanupRemoveStale r.st rest now
    (rr.1, r.tr ++ rr.2)

/-- The per-record update of the reaper's durable sweep: an `online`
record with `lastPing < now - 30000` becomes `offline`; others are left
as they are. -/
def reaperMark (now : Nat) (r : SSESession) : SSESession :=
  if r.lastPing < now - staleThresholdMs && r.status == "online" then
    { r with status := "offline" }
  else r

/-- The ids swept by the reaper's in-memory sweep: the clients whose
in-memory `lastPing < now - 30000`. -/
def staleIds (st : RegState) (now : Nat) : List String :=
  (st.clients.filter (fun c => c.lastPing < now - staleThresholdMs)).map (fun c => c.id)

/-- One tick of the `startSessionCleanup` interval (period
`cleanupIntervalMs` = 10 000 ms).  First the durable sweep: `updateMany`
applying `reaperMark` store-side (this call's failure is caught by the
tick's outer try/catch, which then skips the in-memory sweep); then the
in-memory sweep over `staleIds`. -/
def sessionCleanupTick (st : RegState) (now : Nat) : OpOut :=
  if st.store.dbFails then { st := st, tr := [], err := false }
  else
    let store1 : Store := { st.store with sessions := st.store.sessions.map (reaperMark now) }
    let r := cleanupRemoveStale { clients := st.clients, store := store1 } (staleIds st now) now
    { st := r.1, tr := r.2, err := false }

/-- `db.sSESession.findFirst`-style lookup by the unique `clientId` key. -/
def findSession (sessions : List SSESession) (clientId : String) : Option SSESession :=
  sessions.find? (fun r => r.clientId == clientId)

/-- Running a sequence of `addClient` calls, collecting the traces. -/
def runAdds (st : RegState) (cs : List SSEClient) (now : Nat) : RegState × List Eff :=
  match cs with
  | [] => (st, [])
  | c :: rest =>
    let r := addClient st c now
    let rr := runAdds r.st rest now
    (rr.1, r.tr ++ rr.2)

/-- An empty, healthy store. -/
def emptyStore : Store := { sessions := [], subs := [], dbFails := false }

/-- An empty store whose every call rejects. -/
def failingStore : Store := { sessions := [], subs := [], dbFails := true }

/-- Fresh manager state over a healthy store. -/
def emptyState : RegState := { clients := [], store := emptyStore }

/-- Fresh manager state over a failing store. -/
def failingState : RegState := { clients := [], store := failingStore }

/-- A sample envelope with a `null` payload. -/
def nullEvent : SSEEvent := { event := "e", data := Json.null }

/-- The client of the spec's concrete scenario: id `c1`, session `tokA`. -/
def demoClient : SSEClient :=
  { id := "c1", sessionToken := some "tokA", lastPing := 0, subscriptions := none,
    userAgent := none, ipAddress := none, writeOk := true }

/-- The envelope of the spec's concrete scenario. -/
def demoEvent : SSEEvent :=
  { event := "demo-event",
    data := Json.obj (JsonFields.cons "msg" (Json.str "hi") JsonFields.nil) }

/-- A state holding exactly the scenario client `c1`, healthy store. -/
def oneClientState : RegState := { clients := [demoClient], store := emptyStore }

/-! ### Theorems -/

/-- C8: `sendEventToClient` on an id absent from the live-connection map
never raises, writes nothing, and leaves the state (map, client fields,
store) unchanged. -/
theorem claim_C8 (st : RegState) (clientId : String) (event : SSEEvent)
    (h : mapGet st.clients clientId = none) :
    sendEventToClient st clientId event = { st := st, tr := [], err := false } := by
  simp [sendEventToClient, h]

/-- Witness for C8 at a concrete input: the empty map has no key `x`. -/
theorem claim_C8_witness :
    sendEventToClient emptyState "x" nullEvent = { st := emptyState, tr := [], err := false } :=
  claim_C8 emptyState "x" nullEvent (by decide)

/-- C10: the four send operations leave the registry's in-memory state
(and the store) entirely unchanged, for every state — including states
whose connections fail their writes. -/
theorem claim_C10 (st : RegState) (cid tok en : String) (ev : SSEEvent) :
    (sendEventToClient st cid ev).st = st ∧
    (sendEventToUser st tok ev).st = st ∧
    (broadcast st ev).st = st ∧
    (sendEventToSubscribers st en ev).st = st := by
  refine ⟨?_, rfl, rfl, ?_⟩
  · unfold sendEventToClient
    cases mapGet st.clients cid <;> rfl
  · unfold sendEventToSubscribers
    split <;> rfl

/-- C2 (failing-input evaluation): `subscribeToEvent` stores
`clientId = some sessionToken` regardless of its `clientId` argument —
a call passing `some "c"` and a call passing `none` both leave a record
whose `clientId` is `some "s"`, not the argument. -/
theorem claim_C2_theorem :
    (subscribeToEvent emptyState "s" "e" (some "c")).st.store.subs =
      [{ sessionToken := "s", eventName := "e", clientId := some "s" }] ∧
    (subscribeToEvent emptyState "s" "e" none).st.store.subs =
      [{ sessionToken := "s", eventName := "e", clientId := some "s" }] := by
  constructor <;> decide

/-- C1 (failing-input evaluation): in the spec's concrete scenario —
fresh state, `addClient` of `c1` with session `tokA`, `subscribe` of
`tokA` to `demo-event`, then `sendEventToSubscribers` of `demo-event` —
no write happens on any connection: the stored subscription's `clientId`
is `"tokA"`, and no live client has that id. -/
theorem claim_C1_theorem :
    (sendEventToSubscribers
      (subscribeToEvent (addClient emptyState demoClient 0).st "tokA" "demo-event" none).st
      "demo-event" demoEvent).tr = [] := by
  decide

/-- C3 counterexample: with a failing store, `sendEventToSubscribers`
does not return normally — the uncaught rejection of the store read
propagates to the caller. -/
theorem claim_C3_cex :
    (sendEventToSubscribers failingState "e" nullEvent).err = true := by
  decide

/-- C3 (amended): when a durable-store call fails, every registry
operation except `sendEventToSubscribers` still returns normally, and
the subscription operations leave the whole state untouched;
`sendEventToSubscribers` propagates the failed store read. -/
theorem claim_C3 (st : RegState) (client : SSEClient) (cid tok en s e : String)
    (ocid : Option String) (ev : SSEEvent) (now : Nat)
    (h : st.store.dbFails = true) :
    (addClient st client now).err = false ∧
    (removeClient st cid now).err = false ∧
    (sendEventToClient st cid ev).err = false ∧
    (sendEventToUser st tok ev).err = false ∧
    (broadcast st ev).err = false ∧
    (subscribeToEvent st s e ocid).err = false ∧
    (subscribeToEvent st s e ocid).st = st ∧
    (unsubscribeFromEvent st s e ocid).err = false ∧
    (unsubscribeFromEvent st s e ocid).st = st ∧
    (unsubscribeFromAllEvents st s).err = false ∧
    (unsubscribeFromAllEvents st s).st = st ∧
    (sendEventToSubscribers st en ev).err = true ∧
    (sendEventToSubscribers st en ev).st = st := by
  refine ⟨rfl, ?_, ?_, rfl, rfl, ?_, ?_, ?_, ?_, ?_, ?_, ?_, ?_⟩
  · unfold removeClient
    cases mapGet st.clients cid <;> rfl
  · unfold sendEventToClient
    cases mapGet st.clients cid <;> rfl
  · simp [subscribeToEvent, upsertSubscription, h]
  · simp [subscribeToEvent, upsertSubscription, h]
  · simp [unsubscribeFromEvent, h]
  · simp [unsubscribeFromEvent, h]
  · simp [unsubscribeFromAllEvents, h]
  · simp [unsubscribeFromAllEvents, h]
  · simp [sendEventToSubscribers, h]
  · simp [sendEventToSubscribers, h]

/-- Witness for C3 at a concrete failing store. -/
theorem claim_C3_witness :
    (subscribeToEvent failingState "s" "e" none).err = false ∧
    (sendEventToSubscribers failingState "e" nullEvent).err = true := by
  have h := claim_C3 failingState demoClient "c" "t" "e" "s" "e" none nullEvent 0 (by decide)
  exact ⟨h.2.2.2.2.2.1, h.2.2.2.2.2.2.2.2.2.2.2.1⟩

/-- Any write effect produced by the private `send` carries exactly the
encoded envelope. -/
theorem write_mem_send {c : SSEClient} {ev : SSEEvent} {cid d : String}
    (h : Eff.write cid d ∈ send c ev) : d = sseFormat ev := by
  unfold send at h
  split at h <;> simp_all

/-- Any write effect in a flattened list of `send` traces carries the
encoded envelope. -/
theorem write_mem_sendFlatten {cs : List SSEClient} {ev : SSEEvent} {cid d : String}
    (h : Eff.write cid d ∈ (cs.map (fun c => send c ev)).flatten) : d = sseFormat ev := by
  rw [List.mem_flatten] at h
  obtain ⟨l, hl, hx⟩ := h
  rw [List.mem_map] at hl
  obtain ⟨c, _, rfl⟩ := hl
  exact write_mem_send hx

/-- Any write effect of `sendEventToClient` carries the encoded envelope. -/
theorem write_mem_sendEventToClient {st : RegState} {k : String} {ev : SSEEvent} {cid d : String}
    (h : Eff.write cid d ∈ (sendEventToClient st k ev).tr) : d = sseFormat ev := by
  unfold sendEventToClient at h
  cases hm : mapGet st.clients k <;> rw [hm] at h
  · simp at h
  · exact write_mem_send h

/-- Any write effect of `sendEventToUser` carries the encoded envelope. -/
theorem write_mem_sendEventToUser {st : RegState} {tok : String} {ev : SSEEvent} {cid d : String}
    (h : Eff.write cid d ∈ (sendEventToUser st tok ev).tr) : d = sseFormat ev := by
  unfold sendEventToUser at h
  exact write_mem_sendFlatten h

/-- C9: every write delivered by any of the four send operations is
exactly the event-name line, the data line with the JSON-encoded
payload, and a terminating blank line; and the heartbeat literal is
exactly the encoding of the `ping` envelope with payload `\x7b\x7d`. -/
theorem claim_C9 (st : RegState) (cid tok en : String) (ev : SSEEvent) :
    sseFormat ev = "event: " ++ ev.event ++ "\n" ++ "data: " ++ jsonStringify ev.data ++ "\n\n" ∧
    (∀ c d, Eff.write c d ∈ (sendEventToClient st cid ev).tr → d = sseFormat ev) ∧
    (∀ c d, Eff.write c d ∈ (sendEventToUser st tok ev).tr → d = sseFormat ev) ∧
    (∀ c d, Eff.write c d ∈ (broadcast st ev).tr → d = sseFormat ev) ∧
    (∀ c d, Eff.write c d ∈ (sendEventToSubscribers st en ev).tr → d = sseFormat ev) ∧
    heartbeatPingData = sseFormat { event := "ping", data := Json.obj JsonFields.nil } := by
  refine ⟨?_, ?_, ?_, ?_, ?_, rfl⟩
  · simp [sseFormat, String.append_assoc]
  · intro c d h
    exact write_mem_sendEventToClient h
  · intro c d h
    exact write_mem_sendEventToUser h
  · intro c d h
    unfold broadcast at h
    exact write_mem_sendFlatten h
  · intro c d h
    unfold sendEventToSubscribers at h
    split at h
    · simp at h
    · simp only [List.mem_flatten] at h
      obtain ⟨l, hl, hx⟩ := h
      rw [List.mem_map] at hl
      obtain ⟨sub, _, rfl⟩ := hl
      split at hx
      · split at hx
        · exact write_mem_sendEventToUser hx
        · exact write_mem_sendEventToClient hx
      · exact write_mem_sendEventToUser hx

/-- Witness for C9: in a one-client state, `sendEventToClient` writes the
concrete encoded string for the scenario envelope. -/
theorem claim_C9_witness :
    Eff.write "c1" "event: demo-event\ndata: \x7b\"msg\":\"hi\"\x7d\n\n" ∈
      (sendEventToClient oneClientState "c1" demoEvent).tr ∧
    "event: demo-event\ndata: \x7b\"msg\":\"hi\"\x7d\n\n" = sseFormat demoEvent :=
  ⟨by decide, (claim_C9 oneClientState "c1" "tokA" "demo-event" demoEvent).2.1 "c1" _ (by decide)⟩

/-- `subscribeToEvent` on a healthy store when the stored triple is
absent: the record `(s, e, some s)` is appended. -/
theorem subscribeToEvent_subs_new (st : RegState) (s e : String) (ocid : Option String)
    (hdb : st.store.dbFails = false)
    (hany : st.store.subs.any (fun r =>
      r.sessionToken == s && r.eventName == e && r.clientId == some s) = false) :
    (subscribeToEvent st s e ocid).st.store.subs =
      st.store.subs ++ [{ sessionToken := s, eventName := e, clientId := some s }] := by
  simp [subscribeToEvent, upsertSubscription, hdb, hany]

/-- `subscribeToEvent` on a healthy store when the stored triple is
already present: the table is unchanged. -/
theorem subscribeToEvent_subs_dup (st : RegState) (s e : String) (ocid : Option String)
    (hdb : st.store.dbFails = false)
    (hany : st.store.subs.any (fun r =>
      r.sessionToken == s && r.eventName == e && r.clientId == some s) = true) :
    (subscribeToEvent st s e ocid).st.store.subs = st.store.subs := by
  simp [subscribeToEvent, upsertSubscription, hdb, hany]

/-- `subscribeToEvent` keeps the store's health flag. -/
theorem subscribeToEvent_dbFails (st : RegState) (s e : String) (ocid : Option String)
    (hdb : st.store.dbFails = false) :
    (subscribeToEvent st s e ocid).st.store.dbFails = false := by
  simp [subscribeToEvent, upsertSubscription, hdb]

/-- C6: starting from a store holding no subscription for `(s, e)`,
subscribe-then-unsubscribe leaves zero records matching `(s, e)`, and
subscribing twice with identical arguments leaves exactly one matching
record. -/
theorem claim_C6 (st : RegState) (s e : String)
    (hdb : st.store.dbFails = false)
    (h0 : st.store.subs.filter (fun r => r.sessionToken == s && r.eventName == e) = []) :
    (unsubscribeFromEvent (subscribeToEvent st s e none).st s e none).st.store.subs.filter
      (fun r => r.sessionToken == s && r.eventName == e) = [] ∧
    ((subscribeToEvent (subscribeToEvent st s e none).st s e none).st.store.subs.filter
      (fun r => r.sessionToken == s && r.eventName == e)).length = 1 := by
  have hnone : ∀ r ∈ st.store.subs, ¬(r.sessionToken == s && r.eventName == e) = true := by
    rw [← List.filter_eq_nil_iff]
    exact h0
  have hany : st.store.subs.any (fun r =>
      r.sessionToken == s && r.eventName == e && r.clientId == some s) = false := by
    rw [List.any_eq_false]
    intro r hr
    have := hnone r hr
    simp only [Bool.and_eq_true, beq_iff_eq] at this ⊢
    tauto
  have hdb1 := subscribeToEvent_dbFails st s e none hdb
  have hsubs1 := subscribeToEvent_subs_new st s e none hdb hany
  constructor
  · unfold unsubscribeFromEvent
    rw [hdb1]
    simp only [Bool.false_eq_true, if_false, List.filter_filter]
    rw [List.filter_eq_nil_iff]
    intro r hr
    simp
  · have hany2 : (subscribeToEvent st s e none).st.store.subs.any (fun r =>
        r.sessionToken == s && r.eventName == e && r.clientId == some s) = true := by
      rw [hsubs1, List.any_eq_true]
      refine ⟨{ sessionToken := s, eventName := e, clientId := some s }, by simp, by simp⟩
    have hsubs2 := subscribeToEvent_subs_dup (subscribeToEvent st s e none).st s e none hdb1 hany2
    rw [hsubs2, hsubs1, List.filter_append, h0]
    simp

/-- Witness for C6 on an empty store. -/
theorem claim_C6_witness :
    (unsubscribeFromEvent (subscribeToEvent emptyState "s" "e" none).st "s" "e" none).st.store.subs.filter
      (fun r => r.sessionToken == "s" && r.eventName == "e") = [] ∧
    ((subscribeToEvent (subscribeToEvent emptyState "s" "e" none).st "s" "e" none).st.store.subs.filter
      (fun r => r.sessionToken == "s" && r.eventName == "e")).length = 1 :=
  claim_C6 emptyState "s" "e" (by decide) (by decide)

/-- The full effect of `unsubscribeFromAllEvents` on a healthy store:
records of the session deleted, caches of the session's clients reset,
normal return — the throwing log statement is caught. -/
theorem unsubscribeFromAllEvents_eq (st : RegState) (s : String)
    (hdb : st.store.dbFails = false) :
    unsubscribeFromAllEvents st s =
      { st := { clients := st.clients.map (fun c =>
                  if c.sessionToken == some s then
                    match c.subscriptions with
                    | some _ => { c with subscriptions := some [] }
                    | none => c
                  else c),
                store := { st.store with subs := st.store.subs.filter (fun r =>
                  r.sessionToken != s) } },
        tr := [], err := false } := by
  simp [unsubscribeFromAllEvents, hdb, logUnsubscribeAll]

/-- C7: `unsubscribeFromAllEvents` returns normally despite its throwing
log statement, deletes every subscription record of the session, and
empties the in-memory caches of every live connection of the session. -/
theorem claim_C7 (st : RegState) (s : String) (hdb : st.store.dbFails = false) :
    (unsubscribeFromAllEvents st s).err = false ∧
    (unsubscribeFromAllEvents st s).st.store.subs.filter
      (fun r => r.sessionToken == s) = [] ∧
    ∀ c ∈ (unsubscribeFromAllEvents st s).st.clients, c.sessionToken = some s →
      c.subscriptions = none ∨ c.subscriptions = some [] := by
  rw [unsubscribeFromAllEvents_eq st s hdb]
  refine ⟨rfl, ?_, ?_⟩
  · rw [List.filter_filter, List.filter_eq_nil_iff]
    intro r hr
    simp
  · intro c hc htok
    rw [List.mem_map] at hc
    obtain ⟨x, hx, rfl⟩ := hc
    by_cases hxs : (x.sessionToken == some s) = true
    · rw [if_pos hxs]
      cases hsub : x.subscriptions with
      | none =>
        rw [hsub]
        exact Or.inl rfl
      | some l =>
        exact Or.inr rfl
    · rw [if_neg hxs] at htok ⊢
      rw [htok] at hxs
      simp at hxs

/-- Witness for C7: one subscribed client, one matching record. -/
theorem claim_C7_witness :
    (unsubscribeFromAllEvents
      { clients := [{ id := "c1", sessionToken := some "s", lastPing := 0,
                      subscriptions := some ["e"], userAgent := none, ipAddress := none,
                      writeOk := true }],
        store := { sessions := [],
                   subs := [{ sessionToken := "s", eventName := "e", clientId := some "s" }],
                   dbFails := false } } "s").err = false ∧
    (unsubscribeFromAllEvents
      { clients := [{ id := "c1", sessionToken := some "s", lastPing := 0,
                      subscriptions := some ["e"], userAgent := none, ipAddress := none,
                      writeOk := true }],
        store := { sessions := [],
                   subs := [{ sessionToken := "s", eventName := "e", clientId := some "s" }],
                   dbFails := false } } "s").st.store.subs.filter
      (fun r => r.sessionToken == "s") = [] := by
  have h := claim_C7
    { clients := [{ id := "c1", sessionToken := some "s", lastPing := 0,
                    subscriptions := some ["e"], userAgent := none, ipAddress := none,
                    writeOk := true }],
      store := { sessions := [],
                 subs := [{ sessionToken := "s", eventName := "e", clientId := some "s" }],
                 dbFails := false } } "s" (by decide)
  exact ⟨h.1, h.2.1⟩

/-- "Every session record found under key `k` is offline." -/
def offlineAt (sessions : List SSESession) (k : String) : Prop :=
  ∀ r, findSession sessions k = some r → r.status = "offline"

/-- `findSession` commutes with a record-map that preserves `clientId`. -/
theorem findSession_map (ss : List SSESession) (k : String) (f : SSESession → SSESession)
    (hid : ∀ r, (f r).clientId = r.clientId) :
    findSession (ss.map f) k = (findSession ss k).map f := by
  unfold findSession
  rw [List.find?_map]
  have hp : ((fun r => r.clientId == k) ∘ f) = (fun r : SSESession => r.clientId == k) := by
    funext r
    simp [Function.comp, hid]
  rw [hp]

/-- A record-map that preserves `clientId` and never revives an offline
record preserves `offlineAt`. -/
theorem offlineAt_map (ss : List SSESession) (k : String) (f : SSESession → SSESession)
    (hid : ∀ r, (f r).clientId = r.clientId)
    (hoff : ∀ r, r.status = "offline" → (f r).status = "offline")
    (h : offlineAt ss k) : offlineAt (ss.map f) k := by
  intro r hr
  rw [findSession_map ss k f hid] at hr
  cases hfind : findSession ss k with
  | none => rw [hfind] at hr; simp at hr
  | some r0 =>
    rw [hfind] at hr
    simp only [Option.map_some'] at hr
    cases hr
    exact hoff r0 (h r0 hfind)

/-- `markSessionOffline` preserves `offlineAt` for every key. -/
theorem offlineAt_markSessionOffline (st : Store) (cid k : String) (now : Nat)
    (h : offlineAt st.sessions k) :
    offlineAt (markSessionOffline st cid now).sessions k := by
  unfold markSessionOffline
  split
  · exact h
  · refine offlineAt_map st.sessions k _ ?_ ?_ h
    · intro r; split <;> rfl
    · intro r hr; split <;> simp [hr]

/-- `markSessionOfflineBySessionToken` preserves `offlineAt`. -/
theorem offlineAt_markByToken (st : Store) (tok : String) (k : String) (now : Nat)
    (h : offlineAt st.sessions k) :
    offlineAt (markSessionOfflineBySessionToken st tok now).sessions k := by
  unfold markSessionOfflineBySessionToken
  split
  · exact h
  · refine offlineAt_map st.sessions k _ ?_ ?_ h
    · intro r; split <;> rfl
    · intro r hr; split <;> simp [hr]

/-- On a healthy store, `markSessionOffline` establishes `offlineAt` for
the marked key itself. -/
theorem offlineAt_markSessionOffline_self (st : Store) (cid : String) (now : Nat)
    (hdb : st.dbFails = false) :
    offlineAt (markSessionOffline st cid now).sessions cid := by
  unfold markSessionOffline
  rw [hdb]
  simp only [Bool.false_eq_true, if_false]
  intro r hr
  rw [findSession_map st.sessions cid _ (by intro r0; split <;> rfl)] at hr
  cases hfind : findSession st.sessions cid with
  | none => rw [hfind] at hr; simp at hr
  | some r0 =>
    rw [hfind] at hr
    simp only [Option.map_some'] at hr
    cases hr
    have hfind2 : List.find? (fun r => r.clientId == cid) st.sessions = some r0 := by
      simpa [findSession] using hfind
    have hp : (r0.clientId == cid) = true :=
      @List.find?_some SSESession (fun r => r.clientId == cid) r0 st.sessions hfind2
    rw [if_pos hp]

/-- `removeClient` preserves `offlineAt` for every key. -/
theorem offlineAt_removeClient (st : RegState) (cid k : String) (now : Nat)
    (h : offlineAt st.store.sessions k) :
    offlineAt (removeClient st cid now).st.store.sessions k := by
  unfold removeClient
  cases hm : mapGet st.clients cid with
  | none => exact h
  | some client =>
    simp only
    cases client.sessionToken with
    | none => exact offlineAt_markSessionOffline st.store cid k now h
    | some tok =>
      by_cases ht : tok.isEmpty <;> simp only [ht, if_true, if_false]
      · exact offlineAt_markSessionOffline st.store cid k now h
      · exact offlineAt_markByToken st.store tok k now h

/-- The store helpers never change the failure flag. -/
theorem markSessionOffline_dbFails (st : Store) (cid : String) (now : Nat) :
    (markSessionOffline st cid now).dbFails = st.dbFails := by
  unfold markSessionOffline; split <;> rfl

/-- `markSessionOfflineBySessionToken` never changes the failure flag. -/
theorem markByToken_dbFails (st : Store) (tok : String) (now : Nat) :
    (markSessionOfflineBySessionToken st tok now).dbFails = st.dbFails := by
  unfold markSessionOfflineBySessionToken; split <;> rfl

/-- `removeClient` never changes the failure flag. -/
theorem removeClient_dbFails (st : RegState) (cid : String) (now : Nat) :
    (removeClient st cid now).st.store.dbFails = st.store.dbFails := by
  unfold removeClient
  cases hm : mapGet st.clients cid with
  | none => rfl
  | some client =>
    simp only
    cases client.sessionToken with
    | none => exact markSessionOffline_dbFails st.store cid now
    | some tok =>
      by_cases ht : tok.isEmpty <;> simp only [ht, if_true, if_false]
      · exact markSessionOffline_dbFails st.store cid now
      · exact markByToken_dbFails st.store tok now

/-- The in-memory sweep preserves the failure flag. -/
theorem cleanupRemoveStale_dbFails (st : RegState) (ids : List String) (now : Nat) :
    (cleanupRemoveStale st ids now).1.store.dbFails = st.store.dbFails := by
  induction ids generalizing st with
  | nil => rfl
  | cons cid rest ih =>
    unfold cleanupRemoveStale
    rw [ih]
    rw [removeClient_dbFails]
    exact markSessionOffline_dbFails st.store cid now

/-- The in-memory sweep preserves `offlineAt` for every key. -/
theorem cleanupRemoveStale_offlineAt_pres (st : RegState) (ids : List String) (now : Nat)
    (k : String) (h : offlineAt st.store.sessions k) :
    offlineAt (cleanupRemoveStale st ids now).1.store.sessions k := by
  induction ids generalizing st with
  | nil => exact h
  | cons cid rest ih =>
    unfold cleanupRemoveStale
    exact ih _ (offlineAt_removeClient _ cid k now (offlineAt_markSessionOffline st.store cid k now h))

/-- After the in-memory sweep, every key that was in the swept id list
satisfies `offlineAt` (its `markSessionOffline` ran on a healthy store). -/
theorem cleanupRemoveStale_offlineAt_mem (ids : List String) :
    ∀ (st : RegState) (now : Nat) (k : String), st.store.dbFails = false → k ∈ ids →
      offlineAt (cleanupRemoveStale st ids now).1.store.sessions k := by
  induction ids with
  | nil =>
    intro st now k hdb hk
    cases hk
  | cons cid rest ih =>
    intro st now k hdb hk
    unfold cleanupRemoveStale
    rcases List.mem_cons.mp hk with rfl | hk'
    · exact cleanupRemoveStale_offlineAt_pres _ rest now k
        (offlineAt_removeClient _ k k now (offlineAt_markSessionOffline_self st.store k now hdb))
    · refine ih _ now k ?_ hk'
      rw [removeClient_dbFails]
      rw [markSessionOffline_dbFails]
      exact hdb

/-- `removeClient` removes exactly the entry with the given id. -/
theorem removeClient_clients (st : RegState) (cid : String) (now : Nat) :
    (removeClient st cid now).st.clients = st.clients.filter (fun c => c.id != cid) := by
  unfold removeClient
  cases hm : mapGet st.clients cid with
  | some client => rfl
  | none =>
    unfold mapGet at hm
    rw [List.find?_eq_none] at hm
    symm
    rw [List.filter_eq_self]
    intro c hc
    have h2 := hm c hc
    simp only [Bool.not_eq_true] at h2
    simp [bne, h2]

/-- `reaperMark` never changes a record's key. -/
theorem reaperMark_clientId (now : Nat) (r : SSESession) :
    (reaperMark now r).clientId = r.clientId := by
  unfold reaperMark
  split <;> rfl

/-- `reaperMark` never revives an offline record. -/
theorem reaperMark_offline (now : Nat) (r : SSESession) (h : r.status = "offline") :
    (reaperMark now r).status = "offline" := by
  unfold reaperMark
  split <;> simp [h]

/-- `reaperMark` turns a stale online record offline. -/
theorem reaperMark_stale_online (now : Nat) (r : SSESession)
    (hon : r.status = "online") (hlt : r.lastPing + staleThresholdMs < now) :
    (reaperMark now r).status = "offline" := by
  unfold reaperMark
  have h30 : staleThresholdMs = 30000 := rfl
  have hc : (decide (r.lastPing < now - staleThresholdMs) && (r.status == "online")) = true := by
    simp only [Bool.and_eq_true, decide_eq_true_eq, beq_iff_eq]
    rw [h30] at hlt ⊢
    exact ⟨by omega, hon⟩
  rw [if_pos hc]

/-- The in-memory sweep deletes exactly the entries whose id is in the
swept list. -/
theorem cleanupRemoveStale_clients (ids : List String) :
    ∀ (st : RegState) (now : Nat),
      (cleanupRemoveStale st ids now).1.clients =
        st.clients.filter (fun c => !(ids.contains c.id)) := by
  induction ids with
  | nil =>
    intro st now
    simp [cleanupRemoveStale]
  | cons cid rest ih =>
    intro st now
    unfold cleanupRemoveStale
    rw [ih]
    rw [removeClient_clients]
    simp only
    rw [List.filter_filter]
    refine List.filter_congr ?_
    intro c hc
    cases h1 : c.id == cid <;> cases h2 : rest.contains c.id <;>
      simp only [List.contains_cons, bne, h1, h2] <;> rfl

/-- Membership form of a no-contains fact. -/
theorem contains_eq_false_of_not_mem {l : List String} {a : String} (h : a ∉ l) :
    l.contains a = false := by
  rw [List.contains_eq_any_beq, List.any_eq_false]
  intro x hx
  simp only [beq_iff_eq]
  intro he
  exact h (he ▸ hx)

/-- Contains from membership. -/
theorem contains_eq_true_of_mem {l : List String} {a : String} (h : a ∈ l) :
    l.contains a = true := by
  rw [List.contains_eq_any_beq, List.any_eq_true]
  exact ⟨a, h, by simp⟩

/-- The reaper tick on a healthy store, unfolded. -/
theorem sessionCleanupTick_eq (st : RegState) (now : Nat) (hdb : st.store.dbFails = false) :
    sessionCleanupTick st now =
      { st := (cleanupRemoveStale
          { clients := st.clients,
            store := { st.store with sessions := st.store.sessions.map (reaperMark now) } }
          (staleIds st now) now).1,
        tr := (cleanupRemoveStale
          { clients := st.clients,
            store := { st.store with sessions := st.store.sessions.map (reaperMark now) } }
          (staleIds st now) now).2,
        err := false } := by
  unfold sessionCleanupTick
  rw [hdb]
  simp

/-- C5: one reaper tick on a healthy store (a) marks offline every
durable session record that was online with `lastPing` older than
30 000 ms, (b) evicts from the map every connection whose in-memory
`lastPing` is older than 30 000 ms and leaves its session record
offline, (c) leaves untouched every connection whose `lastPing` is
within 30 000 ms, and (d) evicts a connection stale since some earlier
time `t` at any strictly later tick; the tick period is 10 000 ms. -/
theorem claim_C5 (st : RegState) (now : Nat)
    (hdb : st.store.dbFails = false)
    (hnodup : (st.clients.map (fun c => c.id)).Nodup) :
    (∀ cid rec, findSession st.store.sessions cid = some rec → rec.status = "online" →
      rec.lastPing + staleThresholdMs < now →
      ∀ rec2, findSession (sessionCleanupTick st now).st.store.sessions cid = some rec2 →
        rec2.status = "offline") ∧
    (∀ c ∈ st.clients, c.lastPing + staleThresholdMs < now →
      c.id ∉ (sessionCleanupTick st now).st.clients.map (fun x => x.id) ∧
      ∀ rec2, findSession (sessionCleanupTick st now).st.store.sessions c.id = some rec2 →
        rec2.status = "offline") ∧
    (∀ c ∈ st.clients, ¬(c.lastPing + staleThresholdMs < now) →
      c ∈ (sessionCleanupTick st now).st.clients) ∧
    (∀ c ∈ st.clients, ∀ t, c.lastPing + staleThresholdMs ≤ t → t < now →
      c.id ∉ (sessionCleanupTick st now).st.clients.map (fun x => x.id)) ∧
    cleanupIntervalMs = 10000 := by
  have htick := sessionCleanupTick_eq st now hdb
  have hclients : (sessionCleanupTick st now).st.clients =
      st.clients.filter (fun c => !((staleIds st now).contains c.id)) := by
    rw [htick]
    exact cleanupRemoveStale_clients (staleIds st now) _ now
  have hstaleMem : ∀ c ∈ st.clients, c.lastPing + staleThresholdMs < now →
      c.id ∈ staleIds st now := by
    intro c hc hlt
    unfold staleIds
    refine List.mem_map.mpr ⟨c, ?_, rfl⟩
    rw [List.mem_filter]
    refine ⟨hc, ?_⟩
    have h30 : staleThresholdMs = 30000 := rfl
    simp only [decide_eq_true_eq]
    rw [h30] at hlt ⊢
    omega
  have hstaleNotMem : ∀ c ∈ st.clients, ¬(c.lastPing + staleThresholdMs < now) →
      c.id ∉ staleIds st now := by
    intro c hc hge hmem
    unfold staleIds at hmem
    obtain ⟨c2, hc2, hid⟩ := List.mem_map.mp hmem
    rw [List.mem_filter] at hc2
    obtain ⟨hc2m, hc2lt⟩ := hc2
    have hceq : c2 = c := List.inj_on_of_nodup_map hnodup hc2m hc hid
    subst hceq
    have h30 : staleThresholdMs = 30000 := rfl
    simp only [decide_eq_true_eq] at hc2lt
    rw [h30] at hge
    omega
  have hevict : ∀ c ∈ st.clients, c.id ∈ staleIds st now →
      c.id ∉ (sessionCleanupTick st now).st.clients.map (fun x => x.id) := by
    intro c hc hmem hid
    rw [hclients] at hid
    obtain ⟨x, hx, hxid⟩ := List.mem_map.mp hid
    rw [List.mem_filter] at hx
    obtain ⟨hxm, hxf⟩ := hx
    rw [hxid] at hxf
    rw [contains_eq_true_of_mem hmem] at hxf
    cases hxf
  have hdb1 : (RegState.mk st.clients
      { st.store with sessions := st.store.sessions.map (reaperMark now) }).store.dbFails =
      false := hdb
  refine ⟨?_, ?_, ?_, ?_, rfl⟩
  · intro cid rec hfind hon hstl
    have hoff1 : offlineAt (st.store.sessions.map (reaperMark now)) cid := by
      intro r2 hr2
      rw [findSession_map st.store.sessions cid (reaperMark now) (reaperMark_clientId now)] at hr2
      rw [hfind] at hr2
      simp only [Option.map_some'] at hr2
      have h2 : reaperMark now rec = r2 := Option.some.inj hr2
      rw [← h2]
      exact reaperMark_stale_online now rec hon hstl
    intro rec2 hrec2
    rw [htick] at hrec2
    exact cleanupRemoveStale_offlineAt_pres _ (staleIds st now) now cid hoff1 rec2 hrec2
  · intro c hc hlt
    have hmem := hstaleMem c hc hlt
    refine ⟨hevict c hc hmem, ?_⟩
    intro rec2 hrec2
    rw [htick] at hrec2
    exact cleanupRemoveStale_offlineAt_mem (staleIds st now) _ now c.id hdb1 hmem rec2 hrec2
  · intro c hc hge
    rw [hclients, List.mem_filter]
    refine ⟨hc, ?_⟩
    rw [contains_eq_false_of_not_mem (hstaleNotMem c hc hge)]
    rfl
  · intro c hc t hle hlt
    exact hevict c hc (hstaleMem c hc (by omega))

/-- Witness for C5: one stale client, one fresh client, one stale online
session record, tick at time 40000. -/
theorem claim_C5_witness :
    let staleC : SSEClient := { id := "c1", sessionToken := some "a", lastPing := 0, subscriptions := none, userAgent := none, ipAddress := none, writeOk := true }
    let freshC : SSEClient := { id := "c2", sessionToken := some "b", lastPing := 39000, subscriptions := none, userAgent := none, ipAddress := none, writeOk := true }
    let rec0 : SSESession := { clientId := "c1", sessionToken := some "a", status := "online", lastSeen := 0, lastPing := 0, userAgent := none, ipAddress := none }
    let st0 : RegState := { clients := [staleC, freshC], store := { sessions := [rec0], subs := [], dbFails := false } }
    "c1" ∉ (sessionCleanupTick st0 40000).st.clients.map (fun x => x.id) ∧
    freshC ∈ (sessionCleanupTick st0 40000).st.clients := by
  intro staleC freshC rec0 st0
  have h := claim_C5 st0 40000 (by decide) (by decide)
  refine ⟨(h.2.1 staleC (by decide) (by decide)).1, h.2.2.1 freshC (by decide) (by decide)⟩

/-- A non-empty token is truthy. -/
theorem strTruthy_some_of_ne (tok : String) (h : tok ≠ "") :
    strTruthy (some tok) = true := by
  have hie : tok.isEmpty = false := by
    cases he : tok.isEmpty
    · rfl
    · exact absurd ((String.isEmpty_iff tok).mp he) h
  show (!tok.isEmpty) = true
  rw [hie]
  rfl

/-- The eviction loop deletes exactly the entries whose id is listed. -/
theorem removeClientsFold_clients (ids : List String) :
    ∀ (st : RegState) (now : Nat),
      (removeClientsFold st ids now).1.clients =
        st.clients.filter (fun c => !(ids.contains c.id)) := by
  induction ids with
  | nil =>
    intro st now
    simp [removeClientsFold]
  | cons cid rest ih =>
    intro st now
    unfold removeClientsFold
    rw [ih]
    rw [removeClient_clients]
    rw [List.filter_filter]
    refine List.filter_congr ?_
    intro c hc
    cases h1 : c.id == cid <;> cases h2 : rest.contains c.id <;>
      simp only [List.contains_cons, bne, h1, h2] <;> rfl

/-- Every listed id that denotes a live client gets its connection
closed by the eviction loop. -/
theorem removeClientsFold_closes (ids : List String) :
    ∀ (st : RegState) (now : Nat) (cid : String), ids.Nodup → cid ∈ ids →
      (∀ k ∈ ids, ∃ c ∈ st.clients, c.id = k) →
      Eff.close cid ∈ (removeClientsFold st ids now).2 := by
  induction ids with
  | nil =>
    intro st now cid _ hmem _
    cases hmem
  | cons i rest ih =>
    intro st now cid hnd hmem hwit
    unfold removeClientsFold
    rw [List.nodup_cons] at hnd
    rcases List.mem_cons.mp hmem with rfl | hmem2
    · obtain ⟨c, hc, hcid⟩ := hwit cid (List.mem_cons_self cid rest)
      have hfind : mapGet st.clients cid ≠ none := by
        unfold mapGet
        intro hnone
        rw [List.find?_eq_none] at hnone
        exact hnone c hc (by simp [hcid])
      unfold removeClient
      cases hm : mapGet st.clients cid with
      | none => exact absurd hm hfind
      | some client =>
        simp only
        exact List.mem_append_left _ (List.mem_singleton.mpr rfl)
    · refine List.mem_append_right _ ?_
      refine ih _ now cid hnd.2 hmem2 ?_
      intro k hk
      obtain ⟨c, hc, hcid⟩ := hwit k (List.mem_cons_of_mem i hk)
      refine ⟨c, ?_, hcid⟩
      rw [removeClient_clients, List.mem_filter]
      refine ⟨hc, ?_⟩
      have hki : k ≠ i := fun he => hnd.1 (he ▸ hk)
      simp only [bne, Bool.not_eq_true']
      cases hb : c.id == i
      · rfl
      · rw [beq_iff_eq] at hb
        exact absurd (hcid ▸ hb) hki

/-- In a list with no duplicate ids, the entries carrying a given id
form at most a singleton. -/
theorem filter_id_eq_of_nodup (l : List SSEClient) :
    (l.map (fun c => c.id)).Nodup → ∀ k : String,
      l.filter (fun x => x.id == k) = [] ∨
      ∃ x0 ∈ l, (x0.id == k) = true ∧ l.filter (fun x => x.id == k) = [x0] := by
  induction l with
  | nil =>
    intro _ k
    exact Or.inl rfl
  | cons a t ih =>
    intro hnd k
    rw [List.map_cons, List.nodup_cons] at hnd
    cases hb : a.id == k
    · rcases ih hnd.2 k with h | ⟨x0, hx0, hbx, hfx⟩
      · refine Or.inl ?_
        rw [List.filter_cons_of_neg (by simp [hb]), h]
      · refine Or.inr ⟨x0, List.mem_cons_of_mem a hx0, hbx, ?_⟩
        rw [List.filter_cons_of_neg (by simp [hb]), hfx]
    · refine Or.inr ⟨a, List.mem_cons_self a t, hb, ?_⟩
      rw [List.filter_cons_of_pos (by simp [hb])]
      have ht : t.filter (fun x => x.id == k) = [] := by
        rw [List.filter_eq_nil_iff]
        intro x hx hbx
        rw [beq_iff_eq] at hb hbx
        exact hnd.1 (by rw [hb, ← hbx]; exact List.mem_map_of_mem _ hx)
      rw [ht]

/-- For a client with a truthy token, the eviction phase of `addClient`
leaves exactly the clients of other sessions. -/
theorem addClient_clients_eq (st : RegState) (client : SSEClient) (now : Nat) (tok : String)
    (htok : client.sessionToken = some tok) (htokne : tok ≠ "")
    (hnodup : (st.clients.map (fun c => c.id)).Nodup) :
    (addClient st client now).st.clients =
      mapSet (st.clients.filter (fun c => !(c.sessionToken == some tok))) client := by
  have hpt : ∀ c ∈ st.clients,
      (((st.clients.filter (fun x => x.sessionToken == some tok)).map
        (fun x => x.id)).contains c.id) = (c.sessionToken == some tok) := by
    intro c hc
    cases hp : c.sessionToken == some tok
    · refine contains_eq_false_of_not_mem ?_
      intro hmem
      obtain ⟨c2, hc2, hid⟩ := List.mem_map.mp hmem
      rw [List.mem_filter] at hc2
      have hce : c2 = c := List.inj_on_of_nodup_map hnodup hc2.1 hc hid
      rw [hce] at hc2
      rw [hc2.2] at hp
      cases hp
    · exact contains_eq_true_of_mem
        (List.mem_map_of_mem _ (List.mem_filter.mpr ⟨hc, hp⟩))
  simp only [addClient, htok, strTruthy_some_of_ne tok htokne, if_true]
  rw [removeClientsFold_clients]
  congr 1
  refine List.filter_congr ?_
  intro c hc
  rw [hpt c hc]

/-- `mapSet` on a list free of the session's members puts exactly the new
client in the session's filter. -/
theorem filter_token_mapSet (l : List SSEClient) (client : SSEClient) (tok : String)
    (hnodup : (l.map (fun c => c.id)).Nodup)
    (htok : (client.sessionToken == some tok) = true)
    (hl : ∀ x ∈ l, (x.sessionToken == some tok) = false) :
    (mapSet l client).filter (fun c => c.sessionToken == some tok) = [client] := by
  unfold mapSet
  split
  · rename_i hany
    rw [List.filter_map]
    have hcg : ∀ x ∈ l,
        ((fun c => c.sessionToken == some tok) ∘
          (fun x => if x.id == client.id then client else x)) x = (x.id == client.id) := by
      intro x hx
      cases hb : x.id == client.id <;> simp [Function.comp, hb, htok, hl x hx]
    rw [List.filter_congr hcg]
    rcases filter_id_eq_of_nodup l hnodup client.id with h | ⟨x0, hx0, hbx, hfx⟩
    · exfalso
      rw [List.any_eq_true] at hany
      obtain ⟨x, hx, hbx⟩ := hany
      rw [List.filter_eq_nil_iff] at h
      exact h x hx hbx
    · rw [hfx, List.map_singleton, if_pos hbx]
  · rw [List.filter_append]
    have h1 : l.filter (fun c => c.sessionToken == some tok) = [] := by
      rw [List.filter_eq_nil_iff]
      intro x hx
      simp [hl x hx]
    rw [h1]
    simp [htok]

/-- `mapSet` keeps ids duplicate-free. -/
theorem mapSet_nodup (l : List SSEClient) (client : SSEClient)
    (hnodup : (l.map (fun c => c.id)).Nodup) :
    ((mapSet l client).map (fun c => c.id)).Nodup := by
  unfold mapSet
  split
  · have heq : (l.map (fun x => if x.id == client.id then client else x)).map
        (fun c => c.id) = l.map (fun c => c.id) := by
      rw [List.map_map]
      refine List.map_congr_left ?_
      intro x hx
      simp only [Function.comp]
      cases hb : x.id == client.id
      · simp
      · rw [beq_iff_eq] at hb
        simp [hb]
    rw [heq]
    exact hnodup
  · rename_i hany
    rw [List.map_append, List.nodup_append]
    refine ⟨hnodup, List.nodup_singleton _, ?_⟩
    intro a ha hb
    rw [List.map_singleton, List.mem_singleton] at hb
    subst hb
    obtain ⟨x, hx, hxid⟩ := List.mem_map.mp ha
    have hxf : (x.id == client.id) = false := by
      cases hxb : x.id == client.id
      · rfl
      · exact absurd (List.any_eq_true.mpr ⟨x, hx, hxb⟩) hany
    rw [beq_eq_false_iff_ne] at hxf
    exact hxf hxid

/-- Every member of a `mapSet` result is the new client or an old entry
with a different id. -/
theorem mapSet_mem (l : List SSEClient) (client : SSEClient) :
    ∀ y ∈ mapSet l client, y = client ∨ (y ∈ l ∧ y.id ≠ client.id) := by
  unfold mapSet
  split
  · intro y hy
    obtain ⟨x, hx, rfl⟩ := List.mem_map.mp hy
    cases hb : x.id == client.id
    · rw [beq_eq_false_iff_ne] at hb
      simp only [Bool.false_eq_true, if_false]
      exact Or.inr ⟨hx, hb⟩
    · simp
  · rename_i hany
    intro y hy
    rcases List.mem_append.mp hy with h | h
    · refine Or.inr ⟨h, ?_⟩
      cases hyb : y.id == client.id
      · rw [beq_eq_false_iff_ne] at hyb
        exact hyb
      · exact absurd (List.any_eq_true.mpr ⟨y, h, hyb⟩) hany
    · rw [List.mem_singleton] at h
      exact Or.inl h

/-- After `addClient` of a session client, that client is the single
live connection of its session. -/
theorem addClient_filter_token (st : RegState) (client : SSEClient) (now : Nat) (tok : String)
    (htok : client.sessionToken = some tok) (htokne : tok ≠ "")
    (hnodup : (st.clients.map (fun c => c.id)).Nodup) :
    (addClient st client now).st.clients.filter
      (fun c => c.sessionToken == some tok) = [client] := by
  rw [addClient_clients_eq st client now tok htok htokne hnodup]
  refine filter_token_mapSet _ client tok ?_ (by simp [htok]) ?_
  · exact List.Nodup.sublist (List.Sublist.map _ (List.filter_sublist _)) hnodup
  · intro x hx
    rw [List.mem_filter] at hx
    have h2 := hx.2
    cases hb : x.sessionToken == some tok
    · rfl
    · rw [hb] at h2
      cases h2

/-- `addClient` keeps ids duplicate-free. -/
theorem addClient_nodup (st : RegState) (client : SSEClient) (now : Nat)
    (hnodup : (st.clients.map (fun c => c.id)).Nodup) :
    ((addClient st client now).st.clients.map (fun c => c.id)).Nodup := by
  unfold addClient
  cases hT : strTruthy client.sessionToken
  · simp only [hT, Bool.false_eq_true, if_false]
    exact mapSet_nodup _ _ hnodup
  · simp only [hT, if_true]
    refine mapSet_nodup _ _ ?_
    rw [removeClientsFold_clients]
    exact List.Nodup.sublist (List.Sublist.map _ (List.filter_sublist _)) hnodup

/-- Every member of the map after `addClient` is the new client or a
previous entry with a different id. -/
theorem addClient_mem (st : RegState) (client : SSEClient) (now : Nat) :
    ∀ y ∈ (addClient st client now).st.clients,
      y = client ∨ (y ∈ st.clients ∧ y.id ≠ client.id) := by
  unfold addClient
  cases hT : strTruthy client.sessionToken
  · simp only [hT, Bool.false_eq_true, if_false]
    exact mapSet_mem _ _
  · simp only [hT, if_true]
    intro y hy
    rcases mapSet_mem _ _ y hy with h | ⟨h1, h2⟩
    · exact Or.inl h
    · rw [removeClientsFold_clients] at h1
      exact Or.inr ⟨List.mem_of_mem_filter h1, h2⟩

/-- `addClient` of a session client closes every previously live
connection of that session. -/
theorem addClient_closes (st : RegState) (client : SSEClient) (now : Nat) (tok : String)
    (htok : client.sessionToken = some tok) (htokne : tok ≠ "")
    (hnodup : (st.clients.map (fun c => c.id)).Nodup) :
    ∀ x ∈ st.clients, (x.sessionToken == some tok) = true →
      Eff.close x.id ∈ (addClient st client now).tr := by
  intro x hx hxp
  simp only [addClient, htok, strTruthy_some_of_ne tok htokne, if_true]
  refine removeClientsFold_closes _ st now x.id ?_ ?_ ?_
  · exact List.Nodup.sublist (List.Sublist.map _ (List.filter_sublist _)) hnodup
  · exact List.mem_map_of_mem _ (List.mem_filter.mpr ⟨hx, hxp⟩)
  · intro k hk
    obtain ⟨c2, hc2, hid⟩ := List.mem_map.mp hk
    exact ⟨c2, List.mem_of_mem_filter hc2, hid⟩

/-- The id-indexed session invariant survives a `runAdds` whose clients
all carry the session token. -/
theorem runAdds_token_at_id (cs : List SSEClient) (tok : String) (cid : String) :
    ∀ (st : RegState) (now : Nat),
      (∀ x ∈ cs, x.sessionToken = some tok) →
      (∀ e ∈ st.clients, e.id = cid → e.sessionToken = some tok) →
      ∀ e ∈ (runAdds st cs now).1.clients, e.id = cid → e.sessionToken = some tok := by
  induction cs with
  | nil =>
    intro st now _ hst e he
    exact hst e he
  | cons c rest ih =>
    intro st now hcs hst e he hid
    have hstep : ∀ e2 ∈ (addClient st c now).st.clients, e2.id = cid →
        e2.sessionToken = some tok := by
      intro e2 he2 hid2
      rcases addClient_mem st c now e2 he2 with h | ⟨h1, _⟩
      · rw [h]
        exact hcs c (List.mem_cons_self c rest)
      · exact hst e2 h1 hid2
    exact ih _ now (fun x hx => hcs x (List.mem_cons_of_mem c hx)) hstep e he hid

/-- C4: after a sequence of `addClient` calls sharing one non-empty
session token (pairwise distinct ids, duplicate-free starting map), the
session's live connections are exactly the most recently added client,
and every earlier client of the sequence is out of the map and had its
connection closed — hence at most one live connection per non-empty
session token. -/
theorem claim_C4 (cs : List SSEClient) (tok : String) :
    ∀ (st : RegState) (now : Nat) (hne : cs ≠ []),
      (∀ c ∈ cs, c.sessionToken = some tok) → tok ≠ "" →
      ((cs.map (fun c => c.id)).Nodup) →
      ((st.clients.map (fun c => c.id)).Nodup) →
      (runAdds st cs now).1.clients.filter (fun c => c.sessionToken == some tok) =
        [cs.getLast hne] ∧
      (∀ c ∈ cs.dropLast,
        c.id ∉ (runAdds st cs now).1.clients.map (fun x => x.id) ∧
        Eff.close c.id ∈ (runAdds st cs now).2) := by
  induction cs with
  | nil =>
    intro st now hne
    exact absurd rfl hne
  | cons c rest ih =>
    intro st now hne htok htokne hndcs hndst
    have htokc : c.sessionToken = some tok := htok c (List.mem_cons_self c rest)
    cases rest with
    | nil =>
      constructor
      · exact addClient_filter_token st c now tok htokc htokne hndst
      · intro x hx
        simp at hx
    | cons c2 rest2 =>
      have hne2 : (c2 :: rest2) ≠ [] := by simp
      have htok2 : ∀ x ∈ c2 :: rest2, x.sessionToken = some tok :=
        fun x hx => htok x (List.mem_cons_of_mem c hx)
      have hndcs2 : ((c2 :: rest2).map (fun x => x.id)).Nodup := by
        rw [List.map_cons, List.nodup_cons] at hndcs
        exact hndcs.2
      have hndst2 := addClient_nodup st c now hndst
      have IH := ih (addClient st c now).st now hne2 htok2 htokne hndcs2 hndst2
      have hfilterc : (addClient st c now).st.clients.filter
          (fun x => x.sessionToken == some tok) = [c] :=
        addClient_filter_token st c now tok htokc htokne hndst
      have hcin : c ∈ (addClient st c now).st.clients := by
        have : c ∈ (addClient st c now).st.clients.filter
            (fun x => x.sessionToken == some tok) := by
          rw [hfilterc]
          exact List.mem_singleton_self c
        exact List.mem_of_mem_filter this
      have hrunfst : (runAdds st (c :: c2 :: rest2) now).1 =
          (runAdds (addClient st c now).st (c2 :: rest2) now).1 := rfl
      have hruntr : (runAdds st (c :: c2 :: rest2) now).2 =
          (addClient st c now).tr ++ (runAdds (addClient st c now).st (c2 :: rest2) now).2 := rfl
      constructor
      · rw [hrunfst, List.getLast_cons hne2]
        exact IH.1
      · intro x hx
        rw [List.dropLast_cons₂] at hx
        rcases List.mem_cons.mp hx with rfl | hx2
        · constructor
          · intro hidmem
            rw [hrunfst] at hidmem
            obtain ⟨e, he, heid⟩ := List.mem_map.mp hidmem
            have hbase : ∀ e2 ∈ (addClient st x now).st.clients, e2.id = x.id →
                e2.sessionToken = some tok := by
              intro e2 he2 hid2
              rcases addClient_mem st x now e2 he2 with h | ⟨_, h2⟩
              · rw [h]
                exact htokc
              · exact absurd hid2 h2
            have hQ := runAdds_token_at_id (c2 :: rest2) tok x.id
              (addClient st x now).st now htok2 hbase e he heid
            have hef : e ∈ (runAdds (addClient st x now).st (c2 :: rest2) now).1.clients.filter
                (fun y => y.sessionToken == some tok) :=
              List.mem_filter.mpr ⟨he, by simp [hQ]⟩
            rw [IH.1] at hef
            have helast : e = (c2 :: rest2).getLast hne2 := List.mem_singleton.mp hef
            have hlmem : (c2 :: rest2).getLast hne2 ∈ (c2 :: rest2) := List.getLast_mem hne2
            have hxid : x.id ∈ (c2 :: rest2).map (fun y => y.id) := by
              rw [← heid, helast]
              exact List.mem_map_of_mem _ hlmem
            rw [List.map_cons, List.nodup_cons] at hndcs
            exact hndcs.1 hxid
          · rw [hruntr]
            refine List.mem_append_right _ ?_
            have hruntr2 : (runAdds (addClient st x now).st (c2 :: rest2) now).2 =
                (addClient (addClient st x now).st c2 now).tr ++
                (runAdds (addClient (addClient st x now).st c2 now).st rest2 now).2 := rfl
            rw [hruntr2]
            refine List.mem_append_left _ ?_
            exact addClient_closes (addClient st x now).st c2 now tok
              (htok2 c2 (List.mem_cons_self c2 rest2)) htokne hndst2 x hcin (by simp [htokc])
        · have hres := IH.2 x hx2
          refine ⟨?_, ?_⟩
          · rw [hrunfst]
            exact hres.1
          · rw [hruntr]
            exact List.mem_append_right _ hres.2

/-- Witness for C4: two clients `a` then `b` on session `t` from the
empty registry — only `b` stays, `a` is closed and gone. -/
theorem claim_C4_witness :
    let ca : SSEClient := { id := "a", sessionToken := some "t", lastPing := 0, subscriptions := none, userAgent := none, ipAddress := none, writeOk := true }
    let cb : SSEClient := { id := "b", sessionToken := some "t", lastPing := 0, subscriptions := none, userAgent := none, ipAddress := none, writeOk := true }
    (runAdds emptyState [ca, cb] 0).1.clients.filter
      (fun c => c.sessionToken == some "t") = [cb] ∧
    "a" ∉ (runAdds emptyState [ca, cb] 0).1.clients.map (fun x => x.id) ∧
    Eff.close "a" ∈ (runAdds emptyState [ca, cb] 0).2 := by
  intro ca cb
  have h := claim_C4 [ca, cb] "t" emptyState 0 (by simp)
    (by intro x hx; fin_cases hx <;> rfl) (by decide) (by decide) (by decide)
  have h2 := h.2 ca (by decide)
  exact ⟨h.1, h2.1, h2.2⟩
